import Mathlib

/-!
Verification of `roster-anki-flash-cards.py`, a one-shot pipeline that turns a
saved "Instructor Class List" web page into an Anki flashcard deck.

The embedding works over `String`/`List Char`.  Each Python string operation
used by the script is modelled by a structurally recursive Lean function with
the same semantics (`str.split`, `str.split()` with no argument, `str.join`,
`str.lower`, `str.strip`, `str.replace`, the `in` substring test, and
`urllib.parse.unquote`).  The script's stages (`read_roster`, `rename_photos`,
`make_flashcards`) are modelled as functions over an explicit document
structure and an explicit file-system map, with Python's runtime errors
(`AssertionError`, `IndexError`, `AttributeError`, `FileNotFoundError`)
represented by an `Except` error type.
-/

set_option maxRecDepth 4000

namespace RosterAnki

/-! ## Python string primitives -/

/-- `s.split(sep)` for a single-character separator, on the character list:
splits at every occurrence of the separator, keeping empty pieces, and always
returns at least one piece (Python: `"".split(",") == [""]`). -/
def splitP (p : Char → Bool) : List Char → List (List Char)
  | [] => [[]]
  | c :: cs =>
    match splitP p cs with
    | [] => [[]]
    | h :: t => if p c then [] :: h :: t else (c :: h) :: t

/-- Python `s.split(sep)` for a one-character separator `sep`. -/
def pySplitChar (sep : Char) (s : String) : List String :=
  (splitP (fun c => c == sep) s.data).map String.mk

/-- Python `s.split()` (no argument): split on whitespace runs, dropping
empty pieces. -/
def pySplitWs (s : String) : List String :=
  ((splitP Char.isWhitespace s.data).filter (fun l => l ≠ [])).map String.mk

/-- Python `sep.join(xs)`. -/
def pyJoin (sep : String) (xs : List String) : String :=
  String.mk (List.intercalate sep.data (xs.map String.data))

/-- Python `s.lower()` (ASCII case fold, as used on ASCII label text). -/
def pyLower (s : String) : String :=
  String.mk (s.data.map Char.toLower)

/-- Python `s.strip()`: drop leading and trailing whitespace. -/
def pyStrip (s : String) : String :=
  String.mk (((s.data.dropWhile Char.isWhitespace).reverse.dropWhile
      Char.isWhitespace).reverse)

/-- Replace every occurrence of the character `c` by the string `rep`
(character-list level). -/
def replCharAux (c : Char) (rep : List Char) (s : List Char) : List Char :=
  (s.map (fun x => if x = c then rep else [x])).flatten

/-- Python `s.replace(c, rep)` for a one-character pattern `c`. -/
def pyReplaceChar (c : Char) (rep : String) (s : String) : String :=
  String.mk (replCharAux c rep.data s.data)

/-- Substring test on character lists (Python `pat in s`). -/
def pyInAux (pat : List Char) : List Char → Bool
  | [] => pat.isEmpty
  | c :: cs => pat.isPrefixOf (c :: cs) || pyInAux pat cs

/-- Python `pat in s` (substring containment). -/
def pyIn (pat s : String) : Bool :=
  pyInAux pat.data s.data

/-- Value of a hexadecimal digit, if the character is one. -/
def hexVal (c : Char) : Option Nat :=
  if '0' ≤ c ∧ c ≤ '9' then some (c.toNat - '0'.toNat)
  else if 'a' ≤ c ∧ c ≤ 'f' then some (c.toNat - 'a'.toNat + 10)
  else if 'A' ≤ c ∧ c ≤ 'F' then some (c.toNat - 'A'.toNat + 10)
  else none

/-- `urllib.parse.unquote` on the character list: decode `%XY` hexadecimal
escapes, leaving malformed escapes untouched. -/
def unquoteAux : List Char → List Char
  | '%' :: a :: b :: rest =>
    match hexVal a, hexVal b with
    | some x, some y => Char.ofNat (16 * x + y) :: unquoteAux rest
    | _, _ => '%' :: unquoteAux (a :: b :: rest)
  | c :: rest => c :: unquoteAux rest
  | [] => []

/-- Python `urllib.parse.unquote(s)` (percent-decoding). -/
def pyUnquote (s : String) : String :=
  String.mk (unquoteAux s.data)

/-- Python slice `xs[0::2]`: elements at even indices. -/
def sliceEven : List α → List α
  | [] => []
  | [x] => [x]
  | x :: _ :: xs => x :: sliceEven xs

/-- Python slice `xs[1::2]`: elements at odd indices. -/
def sliceOdd (xs : List α) : List α :=
  sliceEven (xs.drop 1)

/-! ## Error model

Python runtime errors raised by the script, which the spec groups into its
error taxonomy (`FormatError`, `MissingFieldError`, `AssetNotFoundError`). -/

deriving instance DecidableEq for Except

/-- Errors the script can raise at run time. -/
inductive Err where
  | assertionError : Err
  | indexError : Err
  | attributeError : String → Err
  | fileNotFound : String → Err
deriving DecidableEq, Repr

/-! ## Data model -/

/-- One row of the class-list table, as handed to the per-row loop of
`Roster.read_roster`: the `src` attribute of its `img` element, and the
br-filtered children of its second `td` (alternating label elements and value
nodes), each modelled by its text content. -/
structure RawRow where
  photoSrc : String
  infoItems : List String
deriving DecidableEq, Repr

/-- The student record built by `Roster.read_roster` for one row. -/
structure Student where
  photo : String
  advisor : String
  email : String
  lname : String
  fname : String
  name : String
  major : String
  year : String
  photo_renamed : String
deriving DecidableEq, Repr

/-- A saved class-list document, reduced to the parts the script reads: the
page title, the text contents of its `a` elements, and the class-list rows. -/
structure Doc where
  title : String
  links : List String
  rows : List RawRow

/-- The in-memory file system: file name to file content. -/
def FS : Type := String → Option String

/-! ## Record extraction (`Roster.read_roster`) -/

/-- Label normalisation in the per-row loop:
`t.contents[0].strip()` then `.lower().replace(":", "").replace(" ", "")`. -/
def normTag (t : String) : String :=
  pyReplaceChar ' ' "" (pyReplaceChar ':' "" (pyLower (pyStrip t)))

/-- The label/value dictionary a row's loop builds on the record
(`tags = info[0::2]`, `data = info[1::2]`, `o.__dict__[t] = d`):
an `IndexError` when some label has no matching value. -/
def buildDict (items : List String) : Except Err (List (String × String)) :=
  let tags := (sliceEven items).map normTag
  let data := sliceOdd items
  if tags.length ≤ data.length then .ok (tags.zip data) else .error .indexError

/-- Dictionary lookup with Python assignment semantics: the latest binding of
a key wins. -/
def dictGet (d : List (String × String)) (k : String) : Option String :=
  match d with
  | [] => none
  | (k', v) :: rest =>
    match dictGet rest k with
    | some r => some r
    | none => if k' = k then some v else none

/-- Line 156: `o.advisor = " ".join(o.advisor.split(",")[::-1])`. -/
def advisorNameOf (raw : String) : String :=
  pyJoin " " (pySplitChar ',' raw).reverse

/-- Line 158: `o.lname = o.name.split(",")[0]`. -/
def lnameOf (raw : String) : String :=
  (pySplitChar ',' raw).headD ""

/-- Line 159: `o.fname = o.name.split(",")[1]` (an `IndexError` when the raw
name has no comma). -/
def fnameOf (raw : String) : Option String :=
  (pySplitChar ',' raw).get? 1

/-- Line 160: `o.name = " ".join(o.name.split(",")[::-1])`. -/
def fullNameOf (raw : String) : String :=
  pyJoin " " (pySplitChar ',' raw).reverse

/-- Line 161: `o.major = o.primarymajor.split()[0]` (an `IndexError` when the
raw major field is empty or all whitespace). -/
def majorOf (raw : String) : Option String :=
  (pySplitWs raw).get? 0

/-- The body of the per-row loop of `Roster.read_roster` (lines 137-164):
percent-decode the photo reference, build the label/value dictionary, then
derive the normalised fields in the order the source reads them
(advisor, emailaddress, name, primarymajor, classification).  A missing label
surfaces as an `AttributeError` naming the field at its first use. -/
def processRow (r : RawRow) : Except Err Student :=
  let photo := pyUnquote r.photoSrc
  match buildDict r.infoItems with
  | .error e => .error e
  | .ok d =>
    match dictGet d "advisor" with
    | none => .error (.attributeError "advisor")
    | some advisorRaw =>
      match dictGet d "emailaddress" with
      | none => .error (.attributeError "emailaddress")
      | some emailRaw =>
        match dictGet d "name" with
        | none => .error (.attributeError "name")
        | some nameRaw =>
          match fnameOf nameRaw with
          | none => .error .indexError
          | some fname =>
            match dictGet d "primarymajor" with
            | none => .error (.attributeError "primarymajor")
            | some pmRaw =>
              match majorOf pmRaw with
              | none => .error .indexError
              | some major =>
                match dictGet d "classification" with
                | none => .error (.attributeError "classification")
                | some yearRaw =>
                  .ok { photo := photo
                        advisor := advisorNameOf advisorRaw
                        email := emailRaw
                        lname := lnameOf nameRaw
                        fname := fname
                        name := fullNameOf nameRaw
                        major := major
                        year := yearRaw
                        photo_renamed := "" }

/-- The expected page title (line 128's assertion constant). -/
def titleConst : String := "Instructor Class List"

/-- Line 130-131: the `a` elements whose content contains `"@lists"`. -/
def qualLinks (links : List String) : List String :=
  links.filter (fun x => pyIn "@lists" x)

/-- Line 133: `course_email.split("@")[0]`. -/
def localPart (e : String) : String :=
  (pySplitChar '@' e).headD ""

/-- Lines 130-133: take element `[0]` of the qualifying links (an
`IndexError` when there is none) and keep the part before `"@"`. -/
def extractCourse (links : List String) : Except Err String :=
  match qualLinks links with
  | [] => .error .indexError
  | e :: _ => .ok (localPart e)

/-- The row loop of `Roster.read_roster`: process the rows in order,
appending each student record to the roster. -/
def readRows : List RawRow → Except Err (List Student)
  | [] => .ok []
  | r :: rs =>
    match processRow r with
    | .error e => .error e
    | .ok o =>
      match readRows rs with
      | .error e => .error e
      | .ok os => .ok (o :: os)

/-- `Roster.read_roster`: check the title, extract the course name from the
unique-by-assumption mailing-list link, then process every class-list row. -/
def read_roster (d : Doc) : Except Err (String × List Student) :=
  if pyStrip d.title = titleConst then
    match extractCourse d.links with
    | .error e => .error e
    | .ok cname =>
      match readRows d.rows with
      | .error e => .error e
      | .ok roster => .ok (cname, roster)
  else .error .assertionError

/-! ## Photo renaming (`Roster.rename_photos`) -/

/-- Lines 170-171: `f"photo-{r.lname.lower()}-{r.fname.lower()}.jpg"` with
every space of the whole file name replaced by a hyphen. -/
def newPhotoName (o : Student) : String :=
  pyReplaceChar ' ' "-"
    ("photo-" ++ pyLower o.lname ++ "-" ++ pyLower o.fname ++ ".jpg")

/-- `shutil.copy(src, dst)`: read the source file's content and bind it to the
destination name, leaving the source in place; `FileNotFoundError` when the
source is absent. -/
def shutilCopy (fs : FS) (src dst : String) : Except Err FS :=
  match fs src with
  | none => .error (.fileNotFound src)
  | some content => .ok (fun n => if n = dst then some content else fs n)

/-- One iteration of the `rename_photos` loop: copy the photo to its new name
and record that name on the student. -/
def renamePhoto (fs : FS) (o : Student) : Except Err (FS × Student) :=
  match shutilCopy fs o.photo (newPhotoName o) with
  | .error e => .error e
  | .ok fs' => .ok (fs', { o with photo_renamed := newPhotoName o })

/-- `Roster.rename_photos`: run the copy-and-record step over the roster in
order, threading the file system. -/
def rename_photos (fs : FS) : List Student → Except Err (FS × List Student)
  | [] => .ok (fs, [])
  | o :: os =>
    match renamePhoto fs o with
    | .error e => .error e
    | .ok (fs', o') =>
      match rename_photos fs' os with
      | .error e => .error e
      | .ok (fs'', os') => .ok (fs'', o' :: os')

/-! ## Deck generation (`Roster.make_flashcards`) -/

/-- Line 177: `model_id = hash(str(self.course_name)) & 0x7fffffff`.
Python's built-in `hash` on strings is salted per process (hash
randomisation), so the hash function is a parameter here; masking with
`0x7fffffff` is reduction modulo `2 ^ 31` (Python bitwise `and` on a
possibly negative `int` uses two's-complement semantics). -/
def model_id (pyhash : String → Int) (course_name : String) : Int :=
  pyhash course_name % (2 ^ 31)

/-- Line 195: `deck_id = model_id`. -/
def deck_id (pyhash : String → Int) (course_name : String) : Int :=
  model_id pyhash course_name

/-- A generated note: its three rendered field values
`[prompt, photo, answer]`. -/
structure Note where
  fields : List String
deriving DecidableEq, Repr

/-- `MyNote.guid` (lines 85-88): `genanki.guid_for(self.fields[0],
self.fields[1])`, a deterministic function of the first two field values and
of nothing else; modelled by the pair of those values, its canonical form. -/
def guidOf (n : Note) : Option String × Option String :=
  (n.fields.get? 0, n.fields.get? 1)

/-- Line 206: `prompt = f"{self.course_name}<br/>"`. -/
def promptOf (course_name : String) : String :=
  course_name ++ "<br/>"

/-- Line 210: the photo field `f'<img src="{o.photo_renamed}">'`. -/
def photoField (o : Student) : String :=
  "<img src=\"" ++ o.photo_renamed ++ "\">"

/-- Lines 201-205: the rendered answer text. -/
def answerOf (o : Student) : String :=
  (o.name ++ "<br/>\n") ++ (o.year ++ " / " ++ o.major ++ "<br>\n") ++
    (o.email ++ "<br>\n") ++ ("advisor: " ++ o.advisor ++ "<br>\n")

/-- Lines 207-211: the note built for one student. -/
def mkNote (course_name : String) (o : Student) : Note :=
  ⟨[promptOf course_name, photoField o, answerOf o]⟩

/-- Lines 199-213: the note loop of `Roster.make_flashcards`, accumulating
the deck's notes and the media-file list in roster order. -/
def make_flashcards (course_name : String) (roster : List Student) :
    List Note × List String :=
  roster.foldl
    (fun acc o => (acc.1 ++ [mkNote course_name o],
                   acc.2 ++ [o.photo_renamed]))
    ([], [])

/-- `Roster.main` without the CLI step: read the roster, rename the photos,
generate the deck's notes and media list. -/
def runPipeline (d : Doc) (fs : FS) :
    Except Err (FS × List Note × List String) :=
  match read_roster d with
  | .error e => .error e
  | .ok (cname, roster) =>
    match rename_photos fs roster with
    | .error e => .error e
    | .ok (fs', roster') => .ok (fs', make_flashcards cname roster')

/-! ## Basic lemmas about the string primitives -/

theorem strMk_data (s : String) : String.mk s.data = s := by
  cases s
  rfl

theorem splitP_ne_nil (p : Char → Bool) (s : List Char) : splitP p s ≠ [] := by
  cases s with
  | nil => simp [splitP]
  | cons c cs =>
    rw [splitP]
    cases h : splitP p cs with
    | nil => simp
    | cons hd tl => by_cases hc : p c <;> simp [hc]

theorem splitP_sepfree (p : Char → Bool) (a : List Char)
    (h : ∀ c ∈ a, p c = false) : splitP p a = [a] := by
  induction a with
  | nil => rfl
  | cons c cs ih =>
    rw [splitP, ih (fun x hx => h x (List.mem_cons_of_mem c hx))]
    simp [h c (List.mem_cons_self c cs)]

theorem splitP_append_sep (p : Char → Bool) (a : List Char) (sep : Char)
    (b : List Char) (ha : ∀ c ∈ a, p c = false) (hs : p sep = true) :
    splitP p (a ++ sep :: b) = a :: splitP p b := by
  induction a with
  | nil =>
    rw [List.nil_append, splitP]
    cases h : splitP p b with
    | nil => exact absurd h (splitP_ne_nil p b)
    | cons hd tl => simp [hs, h]
  | cons x xs ih =>
    rw [List.cons_append, splitP, ih (fun c hc => ha c (List.mem_cons_of_mem x hc))]
    simp [ha x (List.mem_cons_self x xs)]

theorem beq_false_of_not_mem {sep : Char} {a : List Char} (ha : sep ∉ a) :
    ∀ c ∈ a, (c == sep) = false := by
  intro c hc
  exact beq_eq_false_iff_ne.mpr (fun he => ha (he ▸ hc))

/-- Splitting `a ++ m ++ b` on the separator character making up `m`, when
neither side contains it, yields exactly the two pieces. -/
theorem pySplitChar_pair (sep : Char) (m a b : String) (hm : m.data = [sep])
    (ha : sep ∉ a.data) (hb : sep ∉ b.data) :
    pySplitChar sep (a ++ m ++ b) = [a, b] := by
  unfold pySplitChar
  have hdata : (a ++ m ++ b).data = a.data ++ sep :: b.data := by
    simp [String.data_append, hm]
  rw [hdata, splitP_append_sep _ _ _ _ (beq_false_of_not_mem ha) (by simp),
    splitP_sepfree _ _ (beq_false_of_not_mem hb)]
  simp [strMk_data]

/-- The three-piece version of `pySplitChar_pair`. -/
theorem pySplitChar_triple (sep : Char) (m a b c : String) (hm : m.data = [sep])
    (ha : sep ∉ a.data) (hb : sep ∉ b.data) (hc : sep ∉ c.data) :
    pySplitChar sep (a ++ m ++ b ++ m ++ c) = [a, b, c] := by
  unfold pySplitChar
  have hdata : (a ++ m ++ b ++ m ++ c).data =
      a.data ++ sep :: (b.data ++ sep :: c.data) := by
    simp [String.data_append, hm]
  rw [hdata, splitP_append_sep _ _ _ _ (beq_false_of_not_mem ha) (by simp),
    splitP_append_sep _ _ _ _ (beq_false_of_not_mem hb) (by simp),
    splitP_sepfree _ _ (beq_false_of_not_mem hc)]
  simp [strMk_data]

theorem pyJoin_pair (s a b : String) : pyJoin s [a, b] = a ++ s ++ b := by
  apply String.ext
  simp [pyJoin, List.intercalate, List.intersperse, String.data_append]

theorem pyJoin_triple (s a b c : String) :
    pyJoin s [a, b, c] = a ++ s ++ b ++ s ++ c := by
  apply String.ext
  simp [pyJoin, List.intercalate, List.intersperse, String.data_append]

/-! ## Example inputs shared by the concrete instantiations below -/

/-- A concrete class-list row. -/
def exRow : RawRow :=
  ⟨"photos/img1.jpg",
   ["Name: ", "Smith, Alice", "Advisor: ", "Jones, Bob",
    "Email Address: ", "asmith@sas.upenn.edu",
    "Primary Major: ", "Physics BA", "Classification: ", "Sophomore"]⟩

/-- The student record `processRow` extracts from `exRow`. -/
def exStudent : Student :=
  { photo := "photos/img1.jpg", advisor := " Bob Jones",
    email := "asmith@sas.upenn.edu", lname := "Smith", fname := " Alice",
    name := " Alice Smith", major := "Physics", year := "Sophomore",
    photo_renamed := "" }

/-- A concrete valid document with a single class-list row. -/
def exDoc : Doc :=
  ⟨"Instructor Class List",
   ["home", "PHYS-0150-401-202610@lists.upenn.edu"], [exRow]⟩

/-- A concrete file system holding two photo files. -/
def exFS : FS := fun n =>
  if n = "photos/img1.jpg" then some "JPGDATA1"
  else if n = "photos/img2.jpg" then some "JPGDATA2"
  else none

/-! ## Claim C1 -/

/-- Claim C1: the deck identifier always equals the model identifier (line
195 copies it), but the identifiers are NOT the same value on every run:
`hash(course_name)` is Python's per-process salted string hash, so two runs
with different hash seeds produce different model/deck identifiers for the
same course identifier string.  The second conjunct exhibits two hash
functions (two salts) under which the identifier differs. -/
theorem c1_model_deck_ids_equal_but_hash_salted :
    (∀ (pyhash : String → Int) (c : String),
      deck_id pyhash c = model_id pyhash c) ∧
    ∃ pyhash₁ pyhash₂ : String → Int,
      model_id pyhash₁ "PHYS-0150-401-202610" ≠
        model_id pyhash₂ "PHYS-0150-401-202610" := by
  refine ⟨fun _ _ => rfl, fun _ => 0, fun _ => 1, ?_⟩
  decide

/-! ## Claim C2 -/

/-- Claim C2, counterexample: a document with TWO hyperlinks whose contents
contain the mailing-list marker `"@lists"` does not fail; extraction
succeeds and silently uses the first such link. -/
theorem c2_two_links_do_not_fail :
    (qualLinks ["alpha@lists.upenn.edu", "beta@lists.upenn.edu"]).length = 2 ∧
    extractCourse ["alpha@lists.upenn.edu", "beta@lists.upenn.edu"] =
      .ok "alpha" := by
  decide

/-- Claim C2, amended: if no hyperlink content contains `"@lists"`,
extraction fails (with an index error, the concrete form of the spec's
`FormatError`); if one or more do, extraction succeeds and the course
identifier is the part before `"@"` of the FIRST such link's content. -/
theorem c2_first_qualifying_link_wins (links : List String) :
    (qualLinks links = [] → extractCourse links = .error .indexError) ∧
    (∀ e rest, qualLinks links = e :: rest →
      extractCourse links = .ok (localPart e)) := by
  constructor
  · intro h
    simp [extractCourse, h]
  · intro e rest h
    simp [extractCourse, h]

/-- Concrete instantiation of `c2_first_qualifying_link_wins`. -/
theorem c2_first_qualifying_link_wins_witness :
    qualLinks ["home", "PHYS-0150-401-202610@lists.upenn.edu"] =
      "PHYS-0150-401-202610@lists.upenn.edu" :: [] ∧
    extractCourse ["home", "PHYS-0150-401-202610@lists.upenn.edu"] =
      .ok (localPart "PHYS-0150-401-202610@lists.upenn.edu") :=
  ⟨by decide,
   (c2_first_qualifying_link_wins
      ["home", "PHYS-0150-401-202610@lists.upenn.edu"]).2
     "PHYS-0150-401-202610@lists.upenn.edu" [] (by decide)⟩

/-! ## Claim C3 -/

/-- Claim C3, counterexample: the raw name `"Smith, Alice"` does NOT yield
`firstName = "Alice"` and `fullName = "Alice Smith"`: `split(",")` keeps the
space after the comma, so the first name is `" Alice"` and the full name is
`" Alice Smith"`. -/
theorem c3_example_keeps_leading_space :
    fnameOf "Smith, Alice" = some " Alice" ∧ " Alice" ≠ "Alice" ∧
    fullNameOf "Smith, Alice" = " Alice Smith" ∧
    " Alice Smith" ≠ "Alice Smith" := by
  decide

/-- Claim C3, amended: for a raw name of the form last-comma-first (neither
part containing a comma), the last name is the part before the comma, the
first name is the part after the comma KEPT VERBATIM (so the customary space
after the comma stays on the first name), and the full name is the first
name, a space, and the last name; `"Smith, Alice"` yields
`lastName = "Smith"`, `firstName = " Alice"`, `fullName = " Alice Smith"`. -/
theorem c3_name_split_on_comma (last first : String)
    (hl : ',' ∉ last.data) (hf : ',' ∉ first.data) :
    lnameOf (last ++ "," ++ first) = last ∧
    fnameOf (last ++ "," ++ first) = some first ∧
    fullNameOf (last ++ "," ++ first) = first ++ " " ++ last := by
  have hsplit := pySplitChar_pair ',' "," last first (by decide) hl hf
  refine ⟨?_, ?_, ?_⟩
  · simp [lnameOf, hsplit]
  · simp [fnameOf, hsplit]
  · simp [fullNameOf, hsplit, pyJoin_pair]

/-- Concrete instantiation of `c3_name_split_on_comma`. -/
theorem c3_name_split_on_comma_witness :
    (',' ∉ "Smith".data) ∧ (',' ∉ " Alice".data) ∧
    (lnameOf ("Smith" ++ "," ++ " Alice") = "Smith" ∧
     fnameOf ("Smith" ++ "," ++ " Alice") = some " Alice" ∧
     fullNameOf ("Smith" ++ "," ++ " Alice") = " Alice" ++ " " ++ "Smith") :=
  ⟨by decide, by decide,
   c3_name_split_on_comma "Smith" " Alice" (by decide) (by decide)⟩

/-! ## Claim C4 -/

/-- Claim C4, counterexample: the raw advisor field `"Jones, Bob"` does NOT
yield `advisorName = "Bob Jones"`: the comma-split keeps the space after the
comma, so the result is `" Bob Jones"`; likewise `"Jones, Bob, Carol"`
yields `" Carol  Bob Jones"` (with a double space), not a clean
concatenation. -/
theorem c4_example_keeps_leading_space :
    advisorNameOf "Jones, Bob" = " Bob Jones" ∧
    " Bob Jones" ≠ "Bob Jones" ∧
    advisorNameOf "Jones, Bob, Carol" = " Carol  Bob Jones" := by
  decide

/-- Claim C4, amended: the advisor name is the comma-separated tokens of the
raw advisor field, KEPT VERBATIM (leading spaces included), in reversed
order, joined with a single space: a two-token field `a ++ "," ++ b` yields
`b ++ " " ++ a` and a three-token field `a ++ "," ++ b ++ "," ++ c` yields
`c ++ " " ++ b ++ " " ++ a`; so `"Jones, Bob"` yields `" Bob Jones"` and
`"Jones, Bob, Carol"` yields `" Carol  Bob Jones"`. -/
theorem c4_advisor_reversal_join (a b c : String)
    (ha : ',' ∉ a.data) (hb : ',' ∉ b.data) (hc : ',' ∉ c.data) :
    advisorNameOf (a ++ "," ++ b) = b ++ " " ++ a ∧
    advisorNameOf (a ++ "," ++ b ++ "," ++ c) = c ++ " " ++ b ++ " " ++ a := by
  constructor
  · have hsplit := pySplitChar_pair ',' "," a b (by decide) ha hb
    simp [advisorNameOf, hsplit, pyJoin_pair]
  · have hsplit := pySplitChar_triple ',' "," a b c (by decide) ha hb hc
    simp [advisorNameOf, hsplit, pyJoin_triple]

/-- Concrete instantiation of `c4_advisor_reversal_join`. -/
theorem c4_advisor_reversal_join_witness :
    (',' ∉ "Jones".data) ∧ (',' ∉ " Bob".data) ∧ (',' ∉ " Carol".data) ∧
    (advisorNameOf ("Jones" ++ "," ++ " Bob") = " Bob" ++ " " ++ "Jones" ∧
     advisorNameOf ("Jones" ++ "," ++ " Bob" ++ "," ++ " Carol") =
       " Carol" ++ " " ++ " Bob" ++ " " ++ "Jones") :=
  ⟨by decide, by decide, by decide,
   c4_advisor_reversal_join "Jones" " Bob" " Carol"
     (by decide) (by decide) (by decide)⟩

/-! ## Claim C5 -/

theorem pyReplaceChar_append (c : Char) (rep : String) (s t : String) :
    pyReplaceChar c rep (s ++ t) =
      pyReplaceChar c rep s ++ pyReplaceChar c rep t := by
  apply String.ext
  simp [pyReplaceChar, replCharAux, String.data_append]

/-- Claim C5: when the original photo file exists, the rename step succeeds,
the renamed file is named exactly
`photo-<lastname>-<firstname>.jpg` where each name part is lowercased with
every space replaced by a hyphen, the original file is still present with
its content afterwards (copy, not move), and `photo_renamed` is set to that
name on the resulting record. -/
theorem c5_photo_rename_copy (fs : FS) (o : Student) (b : String)
    (h : fs o.photo = some b) :
    ∃ fs', renamePhoto fs o =
        .ok (fs', { o with photo_renamed := newPhotoName o }) ∧
      fs' o.photo = some b ∧
      fs' (newPhotoName o) = some b ∧
      newPhotoName o =
        "photo-" ++ pyReplaceChar ' ' "-" (pyLower o.lname) ++ "-" ++
          pyReplaceChar ' ' "-" (pyLower o.fname) ++ ".jpg" := by
  refine ⟨fun n => if n = newPhotoName o then some b else fs n, ?_, ?_, ?_, ?_⟩
  · simp [renamePhoto, shutilCopy, h]
  · by_cases hp : o.photo = newPhotoName o
    · simp [hp]
    · simp [hp, h]
  · simp
  · have h1 : pyReplaceChar ' ' "-" "photo-" = "photo-" := by decide
    have h2 : pyReplaceChar ' ' "-" "-" = "-" := by decide
    have h3 : pyReplaceChar ' ' "-" ".jpg" = ".jpg" := by decide
    simp [newPhotoName, pyReplaceChar_append, h1, h2, h3]

/-- Concrete instantiation of `c5_photo_rename_copy`. -/
theorem c5_photo_rename_copy_witness :
    exFS exStudent.photo = some "JPGDATA1" ∧
    (∃ fs', renamePhoto exFS exStudent =
        .ok (fs', { exStudent with photo_renamed := newPhotoName exStudent }) ∧
      fs' exStudent.photo = some "JPGDATA1" ∧
      fs' (newPhotoName exStudent) = some "JPGDATA1" ∧
      newPhotoName exStudent =
        "photo-" ++ pyReplaceChar ' ' "-" (pyLower exStudent.lname) ++ "-" ++
          pyReplaceChar ' ' "-" (pyLower exStudent.fname) ++ ".jpg") :=
  ⟨by decide, c5_photo_rename_copy exFS exStudent "JPGDATA1" (by decide)⟩

/-! ## Claim C6 -/

/-- The lines of a text, as Python would split it on newline characters. -/
def pyLinesOf (s : String) : List String :=
  pySplitChar '\n' s

/-- The reading of claim C6 under test: every listed item appears on a line
of its own, i.e. some line of the text contains it and none of the other
items. -/
def eachOnOwnLine (items : List String) (text : String) : Prop :=
  ∀ x ∈ items, ∃ l ∈ pyLinesOf text, pyIn x l = true ∧
    ∀ y ∈ items, y ≠ x → pyIn y l = false

instance (items : List String) (text : String) :
    Decidable (eachOnOwnLine items text) := by
  unfold eachOnOwnLine
  infer_instance

/-- Claim C6, counterexample: for a concrete record the five items
(fullName, year, major, email, advisor text) are NOT each on a line of
their own in the rendered answer: the year and the major share the second
line (`"Sophomore / Physics<br>"`). -/
theorem c6_year_major_share_a_line :
    ¬ eachOnOwnLine
      [exStudent.name, exStudent.year, exStudent.major, exStudent.email,
       "advisor: " ++ exStudent.advisor]
      (answerOf exStudent) := by
  decide

/-- The answer's visible lines, as the amended claim describes them: the
full name; the year and the major sharing one line separated by " / "; the
email address; "advisor: " followed by the advisor name.  Each line carries
its trailing HTML break tag. -/
def answerSpecLines (o : Student) : List String :=
  [o.name ++ "<br/>", o.year ++ " / " ++ o.major ++ "<br>",
   o.email ++ "<br>", "advisor: " ++ o.advisor ++ "<br>"]

/-- Claim C6, amended: the rendered answer text is exactly the four
newline-terminated lines of `answerSpecLines`: fullName, then
yearOrClassification and major TOGETHER on one line separated by " / ",
then emailAddress, then "advisor: " followed by advisorName. -/
theorem c6_answer_four_lines (o : Student) :
    answerOf o = String.join ((answerSpecLines o).map (fun l => l ++ "\n")) := by
  apply String.ext
  have hbr : ("<br/>\n" : String).data =
      ("<br/>" : String).data ++ ("\n" : String).data := by decide
  have hbr2 : ("<br>\n" : String).data =
      ("<br>" : String).data ++ ("\n" : String).data := by decide
  have hempty : ("" : String).data = ([] : List Char) := rfl
  simp [answerOf, answerSpecLines, String.join, String.data_append,
    hbr, hbr2, hempty]

/-! ## Pipeline lemmas -/

theorem readRows_ok_length {rs : List RawRow} {os : List Student}
    (h : readRows rs = .ok os) : os.length = rs.length := by
  induction rs generalizing os with
  | nil =>
    simp only [readRows] at h
    cases h
    rfl
  | cons r rs ih =>
    simp only [readRows] at h
    split at h
    · cases h
    · split at h
      · cases h
      next os' heq =>
        cases h
        simp [ih heq]

theorem readRows_ok_get {rs : List RawRow} {os : List Student}
    (h : readRows rs = .ok os) :
    ∀ i, i < rs.length → ∃ r o, rs.get? i = some r ∧ processRow r = .ok o ∧
      os.get? i = some o := by
  induction rs generalizing os with
  | nil =>
    intro i hi
    simp at hi
  | cons r rs ih =>
    simp only [readRows] at h
    split at h
    · cases h
    next o ho =>
      split at h
      · cases h
      next os' heq =>
        cases h
        intro i hi
        cases i with
        | zero => exact ⟨r, o, rfl, ho, rfl⟩
        | succ n =>
          obtain ⟨r', o', h1, h2, h3⟩ :=
            ih heq n (by simpa using Nat.lt_of_succ_lt_succ hi)
          exact ⟨r', o', h1, h2, h3⟩

theorem read_roster_ok_inv {d : Doc} {c : String} {roster : List Student}
    (h : read_roster d = .ok (c, roster)) :
    pyStrip d.title = titleConst ∧ extractCourse d.links = .ok c ∧
      readRows d.rows = .ok roster := by
  unfold read_roster at h
  split at h
  next htitle =>
    split at h
    · cases h
    next cname hE =>
      split at h
      · cases h
      next roster0 hR =>
        cases h
        exact ⟨htitle, hE, hR⟩
  · cases h

theorem rename_photos_ok_length {fs fs' : FS} {roster roster' : List Student}
    (h : rename_photos fs roster = .ok (fs', roster')) :
    roster'.length = roster.length := by
  induction roster generalizing fs roster' with
  | nil =>
    simp only [rename_photos] at h
    cases h
    rfl
  | cons o os ih =>
    simp only [rename_photos] at h
    split at h
    · cases h
    next p hp =>
      split at h
      · cases h
      next q hq =>
        cases h
        simp [ih hq]

theorem rename_photos_ok_of_present {roster : List Student} :
    ∀ (fs : FS), (∀ o ∈ roster, (fs o.photo).isSome = true) →
    ∃ fs', rename_photos fs roster =
        .ok (fs',
          roster.map (fun o => { o with photo_renamed := newPhotoName o })) ∧
      ∀ n, (fs n).isSome = true → (fs' n).isSome = true := by
  induction roster with
  | nil => exact fun fs h => ⟨fs, rfl, fun n hn => hn⟩
  | cons o os ih =>
    intro fs h
    have ho : (fs o.photo).isSome = true := h o (List.mem_cons_self o os)
    obtain ⟨b, hb⟩ := Option.isSome_iff_exists.mp ho
    have hmono : ∀ n, (fs n).isSome = true →
        ((fun n => if n = newPhotoName o then some b else fs n) n).isSome
          = true := by
      intro n hn
      by_cases hcase : n = newPhotoName o <;> simp [hcase, hn]
    have hos : ∀ o' ∈ os,
        ((fun n => if n = newPhotoName o then some b else fs n)
          o'.photo).isSome = true :=
      fun o' ho' => hmono _ (h o' (List.mem_cons_of_mem o ho'))
    obtain ⟨fs', hren, hmono'⟩ :=
      ih (fun n => if n = newPhotoName o then some b else fs n) hos
    refine ⟨fs', ?_, fun n hn => hmono' n (hmono n hn)⟩
    simp [rename_photos, renamePhoto, shutilCopy, hb, hren]

theorem strAppend_ne_empty_right (s t : String) (h : t ≠ "") : s ++ t ≠ "" := by
  intro he
  apply h
  apply String.ext
  have hd := congrArg String.data he
  rw [String.data_append] at hd
  simpa using (List.append_eq_nil.mp hd).2

theorem promptOf_ne_empty (c : String) : promptOf c ≠ "" :=
  strAppend_ne_empty_right _ _ (by decide)

theorem photoField_ne_empty (o : Student) : photoField o ≠ "" :=
  strAppend_ne_empty_right _ _ (by decide)

theorem answerOf_ne_empty (o : Student) : answerOf o ≠ "" := by
  unfold answerOf
  apply strAppend_ne_empty_right
  apply strAppend_ne_empty_right
  decide

theorem make_flashcards_aux (c : String) (roster : List Student)
    (acc : List Note × List String) :
    roster.foldl
        (fun acc o => (acc.1 ++ [mkNote c o], acc.2 ++ [o.photo_renamed]))
        acc =
      (acc.1 ++ roster.map (mkNote c),
       acc.2 ++ roster.map (fun o => o.photo_renamed)) := by
  induction roster generalizing acc with
  | nil => simp
  | cons o os ih => simp [List.foldl_cons, ih, List.append_assoc]

theorem make_flashcards_eq (c : String) (roster : List Student) :
    make_flashcards c roster =
      (roster.map (mkNote c), roster.map (fun o => o.photo_renamed)) := by
  simpa [make_flashcards] using make_flashcards_aux c roster ([], [])

/-! ## Claim C7 -/

/-- Claim C7: for a document whose extraction succeeds (structural validity)
with N qualifying rows, and whose photos are all present, the whole run
succeeds, and the output deck holds exactly N cards and N media entries,
every card having its three fields (prompt, photo-embed, answer) non-empty.
With zero rows the hypotheses hold trivially and the deck has zero cards. -/
theorem c7_deck_has_one_card_per_row (d : Doc) (fs : FS) (c : String)
    (roster : List Student)
    (hread : read_roster d = .ok (c, roster))
    (hfs : ∀ o ∈ roster, (fs o.photo).isSome = true) :
    ∃ fs' notes media,
      runPipeline d fs = .ok (fs', notes, media) ∧
      notes.length = d.rows.length ∧ media.length = d.rows.length ∧
      ∀ n ∈ notes, n.fields.length = 3 ∧ ∀ f ∈ n.fields, f ≠ "" := by
  obtain ⟨-, -, hrows⟩ := read_roster_ok_inv hread
  have hlen : roster.length = d.rows.length := readRows_ok_length hrows
  obtain ⟨fs', hren, -⟩ := rename_photos_ok_of_present fs hfs
  refine ⟨fs',
    (roster.map (fun o => { o with photo_renamed := newPhotoName o })).map
      (mkNote c),
    (roster.map (fun o => { o with photo_renamed := newPhotoName o })).map
      (fun o => o.photo_renamed), ?_, ?_, ?_, ?_⟩
  · simp [runPipeline, hread, hren, make_flashcards_eq]
  · simp [hlen]
  · simp [hlen]
  · intro n hn
    simp only [List.mem_map] at hn
    obtain ⟨o, -, rfl⟩ := hn
    refine ⟨rfl, ?_⟩
    intro f hf
    simp only [mkNote, List.mem_cons, List.not_mem_nil, or_false] at hf
    rcases hf with rfl | rfl | rfl
    · exact promptOf_ne_empty c
    · exact photoField_ne_empty _
    · exact answerOf_ne_empty _

/-- Concrete instantiation of `c7_deck_has_one_card_per_row`. -/
theorem c7_deck_has_one_card_per_row_witness :
    read_roster exDoc = .ok ("PHYS-0150-401-202610", [exStudent]) ∧
    (∀ o ∈ [exStudent], (exFS o.photo).isSome = true) ∧
    (∃ fs' notes media,
      runPipeline exDoc exFS = .ok (fs', notes, media) ∧
      notes.length = exDoc.rows.length ∧
      media.length = exDoc.rows.length ∧
      ∀ n ∈ notes, n.fields.length = 3 ∧ ∀ f ∈ n.fields, f ≠ "") :=
  ⟨by decide, by decide,
   c7_deck_has_one_card_per_row exDoc exFS "PHYS-0150-401-202610" [exStudent]
     (by decide) (by decide)⟩

/-! ## Claim C8 -/

/-- Claim C8: a row whose label/value block carries no "Advisor" label (no
dictionary entry normalises to `advisor`) makes row processing fail with the
missing-field error naming `advisor`, at the first normalisation use, rather
than producing a record without the field. -/
theorem c8_missing_advisor_fails_first (r : RawRow)
    (d : List (String × String))
    (hd : buildDict r.infoItems = .ok d)
    (hmiss : dictGet d "advisor" = none) :
    processRow r = .error (.attributeError "advisor") := by
  simp [processRow, hd, hmiss]

/-- Concrete instantiation of `c8_missing_advisor_fails_first`: a row with
name, email, major and classification but no advisor label. -/
theorem c8_missing_advisor_fails_first_witness :
    buildDict ["Name: ", "Smith, Alice", "Email Address: ",
        "asmith@sas.upenn.edu"] =
      .ok [("name", "Smith, Alice"), ("emailaddress", "asmith@sas.upenn.edu")] ∧
    dictGet [("name", "Smith, Alice"), ("emailaddress", "asmith@sas.upenn.edu")]
      "advisor" = none ∧
    processRow ⟨"photos/img1.jpg",
        ["Name: ", "Smith, Alice", "Email Address: ", "asmith@sas.upenn.edu"]⟩ =
      .error (.attributeError "advisor") :=
  ⟨by decide, by decide,
   c8_missing_advisor_fails_first
     ⟨"photos/img1.jpg",
      ["Name: ", "Smith, Alice", "Email Address: ", "asmith@sas.upenn.edu"]⟩
     [("name", "Smith, Alice"), ("emailaddress", "asmith@sas.upenn.edu")]
     (by decide) (by decide)⟩

/-! ## Claim C9 -/

/-- Claim C9: two records in one run whose last and first names agree after
lowercasing get the same renamed photo file name; running the rename step
over both leaves the shared file holding the SECOND record's photo content
(the second copy overwrites the first), and the two generated cards have
identical deduplication keys (guid inputs). -/
theorem c9_name_collision_shares_photo_and_guid (fs : FS) (o₁ o₂ : Student)
    (c b₁ b₂ : String)
    (hl : pyLower o₁.lname = pyLower o₂.lname)
    (hf : pyLower o₁.fname = pyLower o₂.fname)
    (h₁ : fs o₁.photo = some b₁) (h₂ : fs o₂.photo = some b₂)
    (hne : o₂.photo ≠ newPhotoName o₁) :
    newPhotoName o₂ = newPhotoName o₁ ∧
    ∃ fs', rename_photos fs [o₁, o₂] =
        .ok (fs', [{ o₁ with photo_renamed := newPhotoName o₁ },
                   { o₂ with photo_renamed := newPhotoName o₂ }]) ∧
      fs' (newPhotoName o₁) = some b₂ ∧
      guidOf (mkNote c { o₁ with photo_renamed := newPhotoName o₁ }) =
        guidOf (mkNote c { o₂ with photo_renamed := newPhotoName o₂ }) := by
  have hname : newPhotoName o₂ = newPhotoName o₁ := by
    unfold newPhotoName
    rw [hl, hf]
  refine ⟨hname,
    fun n => if n = newPhotoName o₂ then some b₂
      else if n = newPhotoName o₁ then some b₁ else fs n, ?_, ?_, ?_⟩
  · simp [rename_photos, renamePhoto, shutilCopy, h₁, h₂, hne]
  · simp [hname]
  · simp [guidOf, mkNote, photoField, hname]

/-- A second concrete student whose names agree with `exStudent`'s after
lowercasing but differ in case, with a different photo file. -/
def exStudent2 : Student :=
  { photo := "photos/img2.jpg", advisor := " Carol Park",
    email := "asmith2@sas.upenn.edu", lname := "SMITH", fname := " ALICE",
    name := " ALICE SMITH", major := "Math", year := "Junior",
    photo_renamed := "" }

/-- Concrete instantiation of `c9_name_collision_shares_photo_and_guid`. -/
theorem c9_name_collision_shares_photo_and_guid_witness :
    pyLower exStudent.lname = pyLower exStudent2.lname ∧
    pyLower exStudent.fname = pyLower exStudent2.fname ∧
    exFS exStudent.photo = some "JPGDATA1" ∧
    exFS exStudent2.photo = some "JPGDATA2" ∧
    exStudent2.photo ≠ newPhotoName exStudent ∧
    (newPhotoName exStudent2 = newPhotoName exStudent ∧
     ∃ fs', rename_photos exFS [exStudent, exStudent2] =
         .ok (fs',
           [{ exStudent with photo_renamed := newPhotoName exStudent },
            { exStudent2 with photo_renamed := newPhotoName exStudent2 }]) ∧
       fs' (newPhotoName exStudent) = some "JPGDATA2" ∧
       guidOf (mkNote "PHYS-0150-401-202610"
           { exStudent with photo_renamed := newPhotoName exStudent }) =
         guidOf (mkNote "PHYS-0150-401-202610"
           { exStudent2 with photo_renamed := newPhotoName exStudent2 })) :=
  ⟨by decide, by decide, by decide, by decide, by decide,
   c9_name_collision_shares_photo_and_guid exFS exStudent exStudent2
     "PHYS-0150-401-202610" "JPGDATA1" "JPGDATA2"
     (by decide) (by decide) (by decide) (by decide) (by decide)⟩

/-! ## Claim C10 -/

theorem renamePhoto_ok_snd {fs fs₁ : FS} {o o' : Student}
    (h : renamePhoto fs o = .ok (fs₁, o')) :
    o' = { o with photo_renamed := newPhotoName o } := by
  unfold renamePhoto at h
  split at h
  · cases h
  · cases h
    rfl

/-- A successful rename step rewrites each record in place: the output
roster is exactly the input roster, in the same order, with
`photo_renamed` set on every record. -/
theorem rename_photos_ok_map {roster : List Student} :
    ∀ {fs fs' : FS} {roster' : List Student},
    rename_photos fs roster = .ok (fs', roster') →
    roster' = roster.map (fun o => { o with photo_renamed := newPhotoName o }) := by
  induction roster with
  | nil =>
    intro fs fs' roster' h
    simp only [rename_photos] at h
    cases h
    rfl
  | cons o os ih =>
    intro fs fs' roster' h
    simp only [rename_photos] at h
    split at h
    · cases h
    next p hp =>
      split at h
      · cases h
      next q hq =>
        cases h
        obtain ⟨fs₁, o'⟩ := p
        rw [List.map_cons, ← ih hq, renamePhoto_ok_snd hp]

/-- Claim C10: when extraction and renaming succeed, the deck's card list
and the media-file list each hold exactly one entry per qualifying row, and
position i of both lists is derived from row i: the i-th card is the note
rendered from row i's record (with its renamed photo) and the i-th media
entry is that record's renamed photo file. -/
theorem c10_cards_and_media_in_row_order (d : Doc) (c : String)
    (roster roster' : List Student) (fs fs' : FS)
    (hread : read_roster d = .ok (c, roster))
    (hren : rename_photos fs roster = .ok (fs', roster')) :
    (make_flashcards c roster').1.length = d.rows.length ∧
    (make_flashcards c roster').2.length = d.rows.length ∧
    ∀ i, i < d.rows.length →
      ∃ r o, d.rows.get? i = some r ∧ processRow r = .ok o ∧
        (make_flashcards c roster').1.get? i =
          some (mkNote c { o with photo_renamed := newPhotoName o }) ∧
        (make_flashcards c roster').2.get? i =
          some (newPhotoName o) := by
  obtain ⟨-, -, hrows⟩ := read_roster_ok_inv hread
  have hlen : roster.length = d.rows.length := readRows_ok_length hrows
  have hmap := rename_photos_ok_map hren
  rw [make_flashcards_eq, hmap]
  refine ⟨by simp [hlen], by simp [hlen], ?_⟩
  intro i hi
  obtain ⟨r, o, h1, h2, h3⟩ := readRows_ok_get hrows i hi
  refine ⟨r, o, h1, h2, ?_, ?_⟩
  · rw [List.get?_map, List.get?_map, h3]
    rfl
  · rw [List.get?_map, List.get?_map, h3]
    rfl

/-- The file system after renaming `exStudent`'s photo. -/
def exFS1 : FS := fun n =>
  if n = "photo-smith--alice.jpg" then some "JPGDATA1" else exFS n

/-- `exStudent` after the rename step. -/
def exStudent1 : Student :=
  { exStudent with photo_renamed := "photo-smith--alice.jpg" }

/-- Concrete instantiation of `c10_cards_and_media_in_row_order`. -/
theorem c10_cards_and_media_in_row_order_witness :
    read_roster exDoc = .ok ("PHYS-0150-401-202610", [exStudent]) ∧
    rename_photos exFS [exStudent] = .ok (exFS1, [exStudent1]) ∧
    ((make_flashcards "PHYS-0150-401-202610" [exStudent1]).1.length =
       exDoc.rows.length ∧
     (make_flashcards "PHYS-0150-401-202610" [exStudent1]).2.length =
       exDoc.rows.length ∧
     ∀ i, i < exDoc.rows.length →
       ∃ r o, exDoc.rows.get? i = some r ∧ processRow r = .ok o ∧
         (make_flashcards "PHYS-0150-401-202610" [exStudent1]).1.get? i =
           some (mkNote "PHYS-0150-401-202610"
             { o with photo_renamed := newPhotoName o }) ∧
         (make_flashcards "PHYS-0150-401-202610" [exStudent1]).2.get? i =
           some (newPhotoName o)) :=
  ⟨by decide, by rfl,
   c10_cards_and_media_in_row_order exDoc "PHYS-0150-401-202610"
     [exStudent] [exStudent1] exFS exFS1 (by decide) (by rfl)⟩

end RosterAnki
